import Mathlib

/-
Verification development for the wam-rust repository (a web-app launcher
manager).  The only source file available is src/src/gui.rs; the module
src/common.rs (WebAppLauncher, find_icons, move_icon, get_webapps, ...) is
referenced but absent, so those operations are modelled from the spec where
a claim depends on them, and that is noted in the doc comment of each such
definition.  Everything else below is a shallow embedding of gui.rs.
Strings are handled through their character lists so every definition is
kernel-evaluable on concrete inputs.
-/

namespace WamRust

/-- Embedding of Rust `str::starts_with`: the pattern's characters are a
prefix of the subject's characters. -/
def strStartsWith (s p : String) : Bool :=
  List.isPrefixOf p.data s.data

/-- Embedding of Rust `str::ends_with`: the pattern's characters are a
suffix of the subject's characters. -/
def strEndsWith (s p : String) : Bool :=
  List.isSuffixOf p.data s.data

/-- Browser descriptor (src/common.rs `Browser`, used by gui.rs).  Only the
`name` field is consulted by the embedded operations (gui.rs lines 290-291
resolve a browser by `launcher.web_browser.name`); the remaining fields
(`_type`, executable, ...) are irrelevant to the claims and omitted. -/
structure Browser where
  name : String
deriving DecidableEq, Repr

/-- Icon payload kind (gui.rs lines 56-60, `IconType`).  The iced handles
carried by the Rust constructors are foreign GUI types; they are modelled
as opaque unit payloads since no embedded operation inspects them. -/
inductive IconType where
  | Raster
  | Svg
deriving DecidableEq, Repr

/-- In-memory icon (gui.rs lines 62-66, `struct Icon`). -/
structure Icon where
  icon : IconType
  path : String
deriving DecidableEq, Repr

/-- Launcher entity (src/common.rs `WebAppLauncher`).  The fields are those
gui.rs reads or constructs: lines 285-295 read `name`, `url`, `icon`,
`custom_parameters`, `category`, `web_browser.name`, `navbar`,
`is_incognito`; lines 344-376 read `codename` and `is_valid`. -/
structure WebAppLauncher where
  name : String
  codename : String
  url : String
  icon : String
  category : String
  web_browser : Browser
  custom_parameters : String
  is_isolated : Bool
  navbar : Bool
  is_incognito : Bool
  is_valid : Bool
deriving DecidableEq, Repr

/-- Application state (gui.rs lines 74-95, `struct Wam`).  `app_base_dir`
(a filesystem path used only to locate bundled art) is omitted. -/
structure Wam where
  icons_paths : List String
  icons : Option (List Icon)
  app_codename : Option String
  app_title : String
  app_url : String
  app_icon : String
  app_parameters : String
  app_category : String
  app_browser_name : String
  app_browser : Browser
  app_navbar : Bool
  app_incognito : Bool
  app_isolated : Bool
  show_modal : Bool
  icon_searching : String
  selected_icon : Option Icon
  app_browsers : List Browser
  edit_mode : Bool
  launcher : Option WebAppLauncher
deriving DecidableEq, Repr

/-- Host extraction for absolute http/https URLs: a model of the external
`url` crate (`Url::parse` followed by `.host()`) restricted to the URL
shapes this program produces.  Returns the authority component up to the
first delimiter, `none` when the string is not an absolute http(s) URL or
has an empty host. -/
def hostOf (url : String) : Option String :=
  let rest :=
    if strStartsWith url ("http://") then some (url.data.drop 7)
    else if strStartsWith url ("https://") then some (url.data.drop 8)
    else none
  rest.bind (fun r =>
    let h := r.takeWhile (fun c => c != '/' && c != ':' && c != '?' && c != '#')
    if h.isEmpty then none else some (String.mk h))

/-- Scheme test used by gui.rs line 251: the url is left alone exactly when
it starts with `http://` or `https://`. -/
def hasScheme (url : String) : Bool :=
  strStartsWith url ("http://") || strStartsWith url ("https://")

/-- URL normalization: gui.rs lines 251-258 prepend `https://` when the
entered url lacks an `http://`/`https://` scheme, and the spec requires the
same coercion before validation inside the constructor. -/
def normalizeUrl (url : String) : String :=
  if hasScheme url then url else "https://" ++ url

/-- Embedding of Rust `self.app_title.replace(' ', "")` (gui.rs line 203):
replacing every space character with the empty string is exactly filtering
the spaces out of the character list. -/
def stripSpaces (s : String) : String :=
  String.mk (s.data.filter (fun c => c != ' '))

/-- Modelled from the spec: `WebAppLauncher::new` lives in src/common.rs,
which is not under src/.  Per the spec, the constructor takes the ten
arguments gui.rs passes (lines 347-371), keeps the supplied codename on
edit and generates a fresh one otherwise, coerces a bare host to `https://`
before any other processing, and derives `is_valid` as: name non-empty,
url parses as a valid absolute URL, and the browser is currently
resolvable.  Fresh-codename generation and installed-browser detection are
external state, passed here as the `fresh` and `installed` arguments. -/
def WebAppLauncher.new (fresh : String) (title : String)
    (codename : Option String) (url : String) (icon : String)
    (category : String) (browser : Browser) (parameters : String)
    (isolated : Bool) (navbar : Bool) (incognito : Bool)
    (installed : List String) : WebAppLauncher :=
  let nurl := normalizeUrl url
  { name := title
    codename := codename.getD fresh
    url := nurl
    icon := icon
    category := category
    web_browser := browser
    custom_parameters := parameters
    is_isolated := isolated
    navbar := navbar
    is_incognito := incognito
    is_valid := (!(title == "")) && (hostOf nurl).isSome
                  && installed.contains browser.name }

/-- Persistent-store effects issued by the `AppMessage::Result` handler:
`launcher.delete()` (gui.rs line 346) and `launcher.create()` (line 375),
recorded in program order. -/
inductive Effect where
  | delete (codename : String)
  | create (l : WebAppLauncher)
deriving DecidableEq, Repr

/-- Launcher constructed by the `AppMessage::Result` handler (gui.rs lines
345-372): the form fields are passed through, with `Some(old.codename)`
when an edit target is held in `self.launcher` and `None` otherwise. -/
def resultLauncher (fresh : String) (installed : List String)
    (st : Wam) : WebAppLauncher :=
  WebAppLauncher.new fresh st.app_title (st.launcher.map (fun l => l.codename))
    st.app_url st.app_icon st.app_category st.app_browser st.app_parameters
    st.app_isolated st.app_navbar st.app_incognito installed

/-- Effect trace of the `AppMessage::Result` handler (gui.rs lines
344-378): when an edit target exists its persisted entry is deleted first,
then the new launcher is constructed, and `create()` runs only under
`launcher.is_valid`. -/
def resultStep (fresh : String) (installed : List String)
    (st : Wam) : List Effect :=
  match st.launcher with
  | some old =>
      let l := WebAppLauncher.new fresh st.app_title (some old.codename)
        st.app_url st.app_icon st.app_category st.app_browser
        st.app_parameters st.app_isolated st.app_navbar st.app_incognito
        installed
      Effect.delete old.codename :: (if l.is_valid then [Effect.create l] else [])
  | none =>
      let l := WebAppLauncher.new fresh st.app_title none
        st.app_url st.app_icon st.app_category st.app_browser
        st.app_parameters st.app_isolated st.app_navbar st.app_incognito
        installed
      if l.is_valid then [Effect.create l] else []

/-- Reduced message type (gui.rs lines 33-54, `enum AppMessage`),
restricted to the constructors flowing through the embedded handlers. -/
inductive AppMessage where
  | PushIcon (i : Icon)
  | SetIcon (i : Icon)
  | ErrorLoadingIcon
  | SelectIcon (i : Icon)
deriving DecidableEq, Repr

/-- Handler of `Buttons::SearchFavicon` on the state fields it mutates
(gui.rs lines 243-265): the candidate list is cleared and, when the url
field is non-empty and lacks an `http://`/`https://` scheme, `https://` is
prepended to `self.app_url` before the icon search is dispatched.  The
dispatched search itself (`find_icons`) is an asynchronous effect outside
the state transition. -/
def searchFaviconStep (st : Wam) : Wam :=
  let st1 := { st with icons := st.icons.map (fun _ => []) }
  if !(st1.app_url == "") then
    if hasScheme st1.app_url then st1
    else { st1 with app_url := "https://" ++ st1.app_url }
  else st1

/-- Owner name passed to `move_icon` by the `AppMessage::PushIcon` handler:
gui.rs line 203 passes `self.app_title.replace(' ', "")`. -/
def pushIconOwner (st : Wam) : String :=
  stripSpaces st.app_title

/-- Owner name passed to `move_icon` by the `AppMessage::SetIcon` handler:
gui.rs line 406 passes `self.app_title.clone()`. -/
def setIconOwner (st : Wam) : String :=
  st.app_title

/-- Handler of `AppMessage::PushIcon` (gui.rs lines 195-211).  `moveIcon`
stands for `common::move_icon` (absent src/common.rs), supplied as an
environment oracle mapping (source, owner) to the persisted path or an
error.  The Rust code unwraps that result with
`.expect("cant download icon")`; `none` models that panic. -/
def pushIconStep (moveIcon : String → String → Except String String)
    (st : Wam) (icon : Icon) : Option Wam :=
  match st.icons with
  | none => some st
  | some vec =>
      if vec.isEmpty then
        let st1 := { st with selected_icon := some icon }
        if !(strStartsWith icon.path ("http")) then
          some { st1 with app_icon := icon.path, icons := some (vec ++ [icon]) }
        else
          match moveIcon icon.path (pushIconOwner st) with
          | Except.ok saved =>
              some { st1 with app_icon := saved, icons := some (vec ++ [icon]) }
          | Except.error _ => none
      else some { st with icons := some (vec ++ [icon]) }

/-- Delivery of one decode result as a message: a successful decode becomes
`PushIcon`, a failed one `ErrorLoadingIcon` (the two match arms of gui.rs
lines 221-231). -/
def pushOrError (r : Except String Icon) : AppMessage :=
  match r with
  | Except.ok icon => AppMessage.PushIcon icon
  | Except.error _ => AppMessage.ErrorLoadingIcon

/-- Per-candidate decode dispatch inside `AppMessage::FoundIcons` (gui.rs
lines 214-234): a path ending in `.svg` goes to `svg_from_memory`, any
other path to `image_from_memory`.  The two decoders live in src/common.rs
and are supplied as environment oracles. -/
def decodeCandidate (svgDec imgDec : String → Except String Icon)
    (path : String) : AppMessage :=
  if strEndsWith path (".svg") then pushOrError (svgDec path)
  else pushOrError (imgDec path)

/-- Handler of `AppMessage::FoundIcons` (gui.rs lines 212-241): one decode
command per candidate path, batched; an empty result produces no commands
(both the explicit `Command::none()` branch and an empty batch are the
empty message list here). -/
def foundIconsBatch (svgDec imgDec : String → Except String Icon)
    (result : List String) : List AppMessage :=
  result.map (decodeCandidate svgDec imgDec)

/-- Handler of `AppMessage::ErrorLoadingIcon` (gui.rs line 400): the state
is untouched and no command is issued. -/
def errorLoadingIconStep (st : Wam) : Wam :=
  st

/-- Delivery of one decode result as a message for the single-icon sites:
a successful decode becomes `SetIcon`, a failed one `ErrorLoadingIcon`
(the closure arms of gui.rs lines 271-278 and 301-313). -/
def setOrError (r : Except String Icon) : AppMessage :=
  match r with
  | Except.ok icon => AppMessage.SetIcon icon
  | Except.error _ => AppMessage.ErrorLoadingIcon

/-- Decode command dispatched by `Buttons::Favicon` (gui.rs lines
267-279): `path.ends_with(".svg")` selects `svg_from_memory`, any other
path `image_from_memory`, and the result is delivered as `SetIcon` or
`ErrorLoadingIcon`. -/
def faviconCommand (svgDec imgDec : String → Except String Icon)
    (path : String) : AppMessage :=
  if strEndsWith path (".svg") then setOrError (svgDec path)
  else setOrError (imgDec path)

/-- Decode command dispatched by `Buttons::Edit` for the launcher's stored
icon (gui.rs lines 295-316): `launcher.icon.ends_with(".svg")` selects
`svg_from_memory`, otherwise `image_from_memory`, delivered as `SetIcon`
or `ErrorLoadingIcon`. -/
def editCommand (svgDec imgDec : String → Except String Icon)
    (launcher : WebAppLauncher) : AppMessage :=
  if strEndsWith launcher.icon (".svg") then setOrError (svgDec launcher.icon)
  else setOrError (imgDec launcher.icon)

/-- Handler of `Buttons::Edit` (gui.rs lines 281-316) on the state.
`resolve` stands for `Browser::web_browser` (absent src/common.rs), a
name-to-browser lookup; the Rust code unwraps it with
`.expect("browser not found")`, modelled by `none`.  Note `app_isolated`
is not assigned. -/
def editStep (resolve : String → Option Browser) (st : Wam)
    (launcher : WebAppLauncher) : Option Wam :=
  (resolve launcher.web_browser.name).map (fun b =>
    { st with
      edit_mode := true
      launcher := some launcher
      app_title := launcher.name
      app_url := launcher.url
      app_icon := launcher.icon
      app_parameters := launcher.custom_parameters
      app_category := launcher.category
      app_browser := b
      app_navbar := launcher.navbar
      app_incognito := launcher.is_incognito })

/-- Handler of `AppMessage::SetIcon` (gui.rs lines 401-421): the modal is
closed; on `move_icon` success the saved path becomes `app_icon` and a
decode of the saved file is dispatched (returned here as `some saved`); on
failure nothing else happens. -/
def setIconStep (moveIcon : String → String → Except String String)
    (st : Wam) (icon : Icon) : Wam × Option String :=
  let st1 := { st with show_modal := false }
  match moveIcon icon.path (setIconOwner st) with
  | Except.ok saved => ({ st1 with app_icon := saved }, some saved)
  | Except.error _ => (st1, none)

/-- Continuation of the decode dispatched by `AppMessage::SetIcon` (gui.rs
lines 409-417): the decode result is unwrapped with `.unwrap()` before
being delivered as `SelectIcon`; `none` models that panic on a decode
error. -/
def setIconContinuation (result : Except String Icon) : Option AppMessage :=
  match result with
  | Except.ok icon => some (AppMessage.SelectIcon icon)
  | Except.error _ => none

/-- Category list offered by the view's pick list (gui.rs lines 492-502),
spelled exactly as in the source. -/
def categories : List String :=
  [ "Web", "Accesories", "Education", "Games", "Graphics", "Internet",
    "Office", "Programming", "Sound & Video" ]

/-- Modelled from the spec: `get_webapps` / `list()` lives in
src/common.rs, which is not under src/.  Per the spec the store is scanned
and each persisted entry is parsed independently, a malformed entry
yielding an `Err` at its position without aborting the scan; `parse`
stands for the per-entry parser. -/
def get_webapps (parse : String → Except String WebAppLauncher)
    (store : List String) : List (Except String WebAppLauncher) :=
  store.map parse

/-- Row rendered for one readable launcher by the view's installed-apps
loop (gui.rs lines 572-595): the buttons show the launcher's name and the
host of its url, the latter obtained through
`Url::parse(&data.url).expect(..).host().unwrap()`; `none` models those
panics on an unparseable url. -/
def renderOk (l : WebAppLauncher) : Option (String × String) :=
  (hostOf l.url).map (fun h => (l.name, h))

/-- The view's installed-apps loop (gui.rs lines 570-599): every `Ok`
entry is rendered into the list, every `Err` entry is logged, in store
order; `none` propagates a render panic. -/
def viewLoop : List (Except String WebAppLauncher) →
    Option (List (String × String) × List String)
  | [] => some ([], [])
  | Except.ok l :: rest =>
      (renderOk l).bind (fun row =>
        (viewLoop rest).map (fun p => (row :: p.1, p.2)))
  | Except.error e :: rest =>
      (viewLoop rest).map (fun p => (p.1, e :: p.2))

/-- Readable launchers of a listing, in order. -/
def oks (apps : List (Except String WebAppLauncher)) : List WebAppLauncher :=
  apps.filterMap (fun r => match r with
    | Except.ok l => some l
    | Except.error _ => none)

/-- Parse errors of a listing, in order. -/
def errsOf (apps : List (Except String WebAppLauncher)) : List String :=
  apps.filterMap (fun r => match r with
    | Except.ok _ => none
    | Except.error e => some e)

/-- Initial application state (gui.rs lines 106-137, `Wam::new`), with the
first detected browser passed in. -/
def Wam.init (browser : Browser) (browsers : List Browser) : Wam :=
  { icons_paths := []
    icons := some []
    app_codename := none
    app_title := ""
    app_url := ""
    app_icon := ""
    app_parameters := ""
    app_category := "Web"
    app_browser_name := "Browser"
    app_browser := browser
    app_navbar := false
    app_incognito := false
    app_isolated := true
    show_modal := false
    icon_searching := ""
    selected_icon := none
    app_browsers := browsers
    edit_mode := false
    launcher := none }

/-- Sample browser for concrete evaluations. -/
def firefox : Browser :=
  { name := "firefox" }

/-- Sample persisted launcher for concrete evaluations. -/
def sampleLauncher : WebAppLauncher :=
  { name := "Example"
    codename := "old1"
    url := "https://example.com"
    icon := "/data/icons/example.png"
    category := "Web"
    web_browser := firefox
    custom_parameters := ""
    is_isolated := false
    navbar := true
    is_incognito := true
    is_valid := true }

/-- Sample state holding `sampleLauncher` as edit target. -/
def editState : Wam :=
  { Wam.init firefox [firefox] with
      app_title := "Example"
      app_url := "example.com"
      launcher := some sampleLauncher }

/-- Sample state whose title contains a space. -/
def spacedState : Wam :=
  { Wam.init firefox [firefox] with app_title := "My App" }

/-- Sample per-entry parser: one fixed readable entry, everything else
malformed. -/
def sampleParse : String → Except String WebAppLauncher :=
  fun s => if s == "good" then Except.ok sampleLauncher else Except.error s

/-- Sample vector decoder that always succeeds. -/
def okSvgDec : String → Except String Icon :=
  fun p => Except.ok { icon := IconType.Svg, path := p }

/-- Sample raster decoder that always fails. -/
def failImgDec : String → Except String Icon :=
  fun p => Except.error p

/-- Sample browser lookup resolving only `firefox`. -/
def resolveSample : String → Option Browser :=
  fun n => if n == "firefox" then some firefox else none

/-- The launcher built inside either branch of `resultStep` is
`resultLauncher`. -/
theorem resultStep_eq (fresh : String) (installed : List String) (st : Wam) :
    resultStep fresh installed st =
      (match st.launcher with
       | some old => [Effect.delete old.codename]
       | none => []) ++
      (if (resultLauncher fresh installed st).is_valid
       then [Effect.create (resultLauncher fresh installed st)] else []) := by
  cases h : st.launcher <;>
    simp [resultStep, resultLauncher, h]

/-- Normalization always yields a url with an explicit scheme. -/
theorem hasScheme_normalizeUrl (url : String) :
    hasScheme (normalizeUrl url) = true := by
  unfold normalizeUrl
  by_cases h : hasScheme url = true
  · simp [h]
  · simp only [h, Bool.false_eq_true, if_false]
    unfold hasScheme strStartsWith
    refine Bool.or_eq_true _ _ |>.mpr (Or.inr ?_)
    rw [show ("https://" ++ url).data = "https://".data ++ url.data from rfl]
    rw [List.isPrefixOf_iff_prefix]
    exact List.prefix_append _ _

/-- C1: editing a persisted launcher deletes the old entry first and writes
the new launcher back under the old codename, while a save with no edit
target constructs the launcher with a fresh codename (None passed to the
constructor). -/
theorem edit_reuses_codename (fresh : String) (installed : List String)
    (st : Wam) :
    (∀ old, st.launcher = some old →
      (resultLauncher fresh installed st).codename = old.codename ∧
      ∃ rest, resultStep fresh installed st = Effect.delete old.codename :: rest ∧
        ∀ e ∈ rest, e = Effect.create (resultLauncher fresh installed st)) ∧
    (st.launcher = none →
      (resultLauncher fresh installed st).codename = fresh) := by
  constructor
  · intro old h
    refine ⟨by simp [resultLauncher, WebAppLauncher.new, h], ?_⟩
    refine ⟨if (resultLauncher fresh installed st).is_valid
      then [Effect.create (resultLauncher fresh installed st)] else [], ?_, ?_⟩
    · rw [resultStep_eq]
      simp [h]
    · intro e he
      split at he <;> simp_all
  · intro h
    simp [resultLauncher, WebAppLauncher.new, h]

/-- Witness for C1 at a concrete edit state and a concrete fresh state. -/
theorem edit_reuses_codename_witness :
    (resultLauncher ("fresh1") ["firefox"] editState).codename = "old1" ∧
    (∃ rest, resultStep ("fresh1") ["firefox"] editState =
      Effect.delete ("old1") :: rest) ∧
    (resultLauncher ("fresh1") ["firefox"] (Wam.init firefox [firefox])).codename
      = "fresh1" := by
  have h1 := edit_reuses_codename ("fresh1") ["firefox"] editState
  have h2 := edit_reuses_codename ("fresh1") ["firefox"] (Wam.init firefox [firefox])
  have h3 := h1.1 sampleLauncher (by rfl)
  exact ⟨h3.1, h3.2.elim (fun rest hr => ⟨rest, hr.1⟩), h2.2 (by rfl)⟩

/-- C2: the `Done` handler invokes `create()` if and only if the launcher
it just constructed has `is_valid` set, and the only launcher ever passed
to `create()` is that constructed one. -/
theorem create_iff_valid (fresh : String) (installed : List String)
    (st : Wam) :
    ((∃ l, Effect.create l ∈ resultStep fresh installed st) ↔
      (resultLauncher fresh installed st).is_valid = true) ∧
    (∀ l, Effect.create l ∈ resultStep fresh installed st →
      l = resultLauncher fresh installed st) := by
  rw [resultStep_eq]
  by_cases hv : (resultLauncher fresh installed st).is_valid = true
  · cases h : st.launcher <;> simp [hv, h]
  · cases h : st.launcher <;> simp [hv, h]

/-- Witness for C2: at the concrete edit state the constructed launcher is
valid and the create effect targets exactly it. -/
theorem create_iff_valid_witness :
    (resultLauncher ("f2") ["firefox"] editState).is_valid = true ∧
    Effect.create (resultLauncher ("f2") ["firefox"] editState)
      ∈ resultStep ("f2") ["firefox"] editState ∧
    resultLauncher ("f2") ["firefox"] editState =
      resultLauncher ("f2") ["firefox"] editState := by
  have h := create_iff_valid ("f2") ["firefox"] editState
  have hv : (resultLauncher ("f2") ["firefox"] editState).is_valid = true := by decide
  have hmem : Effect.create (resultLauncher ("f2") ["firefox"] editState)
      ∈ resultStep ("f2") ["firefox"] editState := by decide
  exact ⟨hv, hmem, h.2 (resultLauncher ("f2") ["firefox"] editState) hmem⟩

/-- C3: a url lacking an `http://`/`https://` scheme is coerced to
`https://` by the favicon search before any further processing, and every
launcher passed to `create()` carries a url with an explicit scheme. -/
theorem url_scheme_explicit (fresh : String) (installed : List String)
    (st : Wam) (h : ¬ st.app_url = "") :
    hasScheme (searchFaviconStep st).app_url = true ∧
    (∀ l, Effect.create l ∈ resultStep fresh installed st →
      hasScheme l.url = true) := by
  constructor
  · unfold searchFaviconStep
    have hne : ¬ ({ st with icons := st.icons.map (fun _ => []) }.app_url == "") = true := by
      simpa [beq_iff_eq] using h
    by_cases hs : hasScheme st.app_url = true
    · simp [hne, hs]
    · simp only [hne, Bool.not_eq_true]
      simp only [Bool.not_eq_true] at hne
      simp [hne, hs]
      have := hasScheme_normalizeUrl st.app_url
      unfold normalizeUrl at this
      simpa [hs] using this
  · intro l hl
    rw [resultStep_eq] at hl
    rcases List.mem_append.mp hl with h1 | h1
    · cases hst : st.launcher <;> simp [hst] at h1
    · have : l = resultLauncher fresh installed st := by
        split at h1 <;> simp_all
      rw [this]
      simpa [resultLauncher, WebAppLauncher.new] using
        hasScheme_normalizeUrl st.app_url

/-- Witness for C3 at the concrete edit state, whose url field holds the
bare host `example.com`. -/
theorem url_scheme_explicit_witness :
    hasScheme (searchFaviconStep editState).app_url = true ∧
    hasScheme (resultLauncher ("f3") ["firefox"] editState).url = true := by
  have h := url_scheme_explicit ("f3") ["firefox"] editState (by decide)
  exact ⟨h.1, h.2 (resultLauncher ("f3") ["firefox"] editState) (by decide)⟩

/-- C4 counterexample: the offered category list does not contain the
spelling `Accessories` and so differs from the claimed enumeration; the
source spells the second entry `Accesories`. -/
theorem categories_claimed_spelling_fails :
    ¬ ("Accessories" ∈ categories) ∧
    categories ≠ [ "Web", "Accessories", "Education", "Games", "Graphics",
      "Internet", "Office", "Programming", "Sound & Video" ] := by
  decide

/-- C4 (amended): the set of categories offered to the user is exactly the
fixed nine-element enumeration Web, Accesories, Education, Games, Graphics,
Internet, Office, Programming, Sound & Video, spelled as in the source and
free of duplicates. -/
theorem categories_exact :
    categories = [ "Web", "Accesories", "Education", "Games", "Graphics",
      "Internet", "Office", "Programming", "Sound & Video" ] ∧
    categories.Nodup ∧ categories.length = 9 := by
  refine ⟨rfl, by decide, rfl⟩

/-- C5 counterexample: with the title `My App`, `AppMessage::PushIcon`
hands `move_icon` the owner name `MyApp` while `AppMessage::SetIcon` hands
it `My App`, so the two call sites do not pass the same owner name for a
fixed title. -/
theorem icon_owner_differs :
    pushIconOwner spacedState ≠ setIconOwner spacedState := by
  decide

/-- C5 (amended): both `move_icon` call sites derive the owner name
deterministically from the launcher title, but `PushIcon` strips spaces
while `SetIcon` passes the title verbatim; the two owner names coincide
exactly for titles containing no space character. -/
theorem icon_owner_names (st : Wam) :
    (pushIconOwner st = stripSpaces st.app_title ∧
      setIconOwner st = st.app_title) ∧
    (pushIconOwner st = setIconOwner st ↔
      ∀ c ∈ st.app_title.data, c ≠ ' ') := by
  refine ⟨⟨rfl, rfl⟩, ?_⟩
  unfold pushIconOwner setIconOwner stripSpaces
  constructor
  · intro h c hc
    have hd : st.app_title.data.filter (fun c => c != ' ') = st.app_title.data :=
      congrArg String.data h
    rw [List.filter_eq_self] at hd
    simpa using hd c hc
  · intro h
    have : st.app_title.data.filter (fun c => c != ' ') = st.app_title.data :=
      List.filter_eq_self.mpr (fun a ha => by simpa using h a ha)
    calc String.mk (st.app_title.data.filter (fun c => c != ' '))
        = String.mk st.app_title.data := congrArg String.mk this
      _ = st.app_title := rfl

/-- C6: at all three decode call sites (the `FoundIcons` batch, picking a
favicon, loading a stored icon for editing) the decoder is selected by the
candidate's declared extension: a path ending in `.svg` is handed to the
vector decoder and every other path to the raster decoder, for arbitrary
decoder behaviour. -/
theorem decoder_by_extension (svgDec imgDec : String → Except String Icon)
    (path : String) (launcher : WebAppLauncher) :
    (strEndsWith path (".svg") = true →
      decodeCandidate svgDec imgDec path = pushOrError (svgDec path) ∧
      faviconCommand svgDec imgDec path = setOrError (svgDec path)) ∧
    (strEndsWith path (".svg") = false →
      decodeCandidate svgDec imgDec path = pushOrError (imgDec path) ∧
      faviconCommand svgDec imgDec path = setOrError (imgDec path)) ∧
    (strEndsWith launcher.icon (".svg") = true →
      editCommand svgDec imgDec launcher = setOrError (svgDec launcher.icon)) ∧
    (strEndsWith launcher.icon (".svg") = false →
      editCommand svgDec imgDec launcher = setOrError (imgDec launcher.icon)) := by
  exact ⟨fun h => ⟨by simp [decodeCandidate, h], by simp [faviconCommand, h]⟩,
    fun h => ⟨by simp [decodeCandidate, h], by simp [faviconCommand, h]⟩,
    fun h => by simp [editCommand, h],
    fun h => by simp [editCommand, h]⟩

/-- Witness for C6 covering all three sites, with one svg input and one
raster input each: the batch site on an svg path, the favicon site on a
raster path, and the edit site on a launcher with a raster icon and on one
with an svg icon. -/
theorem decoder_by_extension_witness :
    decodeCandidate okSvgDec failImgDec ("a.svg") = pushOrError (okSvgDec ("a.svg")) ∧
    faviconCommand okSvgDec failImgDec ("a.png") = setOrError (failImgDec ("a.png")) ∧
    editCommand okSvgDec failImgDec sampleLauncher =
      setOrError (failImgDec sampleLauncher.icon) ∧
    editCommand okSvgDec failImgDec
        { sampleLauncher with icon := "/data/icons/example.svg" } =
      setOrError (okSvgDec ("/data/icons/example.svg")) := by
  have h1 := decoder_by_extension okSvgDec failImgDec ("a.svg") sampleLauncher
  have h2 := decoder_by_extension okSvgDec failImgDec ("a.png")
    { sampleLauncher with icon := "/data/icons/example.svg" }
  exact ⟨(h1.1 (by decide)).1, (h2.2.1 (by decide)).2,
    h1.2.2.2 (by decide), h2.2.2.1 (by decide)⟩

/-- C7: the `FoundIcons` batch issues one independent decode per candidate
(the message at every position depends only on that position's path), a
failing candidate is delivered as `ErrorLoadingIcon`, and the
`ErrorLoadingIcon` handler leaves the application state unchanged. -/
theorem batch_failure_isolated (svgDec imgDec : String → Except String Icon)
    (result : List String) :
    (foundIconsBatch svgDec imgDec result).length = result.length ∧
    (∀ i : Nat, (foundIconsBatch svgDec imgDec result)[i]? =
      (result[i]?).map (decodeCandidate svgDec imgDec)) ∧
    (∀ path err,
      (if strEndsWith path (".svg") then svgDec path else imgDec path) =
        Except.error err →
      decodeCandidate svgDec imgDec path = AppMessage.ErrorLoadingIcon) ∧
    (∀ st, errorLoadingIconStep st = st) := by
  refine ⟨by simp [foundIconsBatch],
    fun i => by simp [foundIconsBatch],
    ?_, fun st => rfl⟩
  intro path err h
  unfold decodeCandidate
  by_cases hs : strEndsWith path (".svg") = true
  · simp only [hs, if_true] at h ⊢
    simp [h, pushOrError]
  · simp only [hs, Bool.false_eq_true, if_false] at h ⊢
    simp [h, pushOrError]

/-- Witness for C7: in a two-candidate batch the raster candidate fails and
is delivered as `ErrorLoadingIcon` while the batch still has one message
per candidate. -/
theorem batch_failure_isolated_witness :
    decodeCandidate okSvgDec failImgDec ("b.png") = AppMessage.ErrorLoadingIcon ∧
    (foundIconsBatch okSvgDec failImgDec ["a.svg", "b.png"]).length = 2 := by
  have h := batch_failure_isolated okSvgDec failImgDec ["a.svg", "b.png"]
  exact ⟨h.2.2.1 ("b.png") ("b.png") (by rfl), h.1⟩

/-- The view loop renders one row per readable entry and logs every parse
error in order, provided each readable entry's url has a host. -/
theorem viewLoop_spec (apps : List (Except String WebAppLauncher))
    (h : ∀ l ∈ oks apps, (hostOf l.url).isSome = true) :
    ∃ rows, viewLoop apps = some (rows, errsOf apps) ∧
      rows.length = (oks apps).length := by
  induction apps with
  | nil => exact ⟨[], rfl, rfl⟩
  | cons a rest ih =>
    cases a with
    | ok l =>
      have hl : (hostOf l.url).isSome = true := h l (by simp [oks])
      obtain ⟨row, hrow⟩ : ∃ row, renderOk l = some row := by
        unfold renderOk
        cases hh : hostOf l.url
        · rw [hh] at hl
          simp at hl
        · exact ⟨_, rfl⟩
      obtain ⟨rows, hv, hlen⟩ := ih (fun x hx => h x (by
        simp only [oks, List.filterMap_cons] at hx ⊢
        exact List.mem_cons_of_mem _ hx))
      refine ⟨row :: rows, ?_, ?_⟩
      · simp [viewLoop, hrow, hv, errsOf]
      · simp [oks, hlen]
    | error e =>
      obtain ⟨rows, hv, hlen⟩ := ih (fun x hx => h x (by
        simp only [oks, List.filterMap_cons] at hx ⊢
        exact hx))
      refine ⟨rows, ?_, ?_⟩
      · simp [viewLoop, hv, errsOf]
      · simpa [oks] using hlen

/-- C8: listing yields one `Result` per persisted entry, each parsed
independently at its position, and the view's consumer loop renders every
`Ok` launcher and logs every `Err` without aborting or skipping the rest. -/
theorem listing_partial_failure (parse : String → Except String WebAppLauncher)
    (store : List String)
    (h : ∀ l ∈ oks (get_webapps parse store), (hostOf l.url).isSome = true) :
    (get_webapps parse store).length = store.length ∧
    (∀ i : Nat, (get_webapps parse store)[i]? = (store[i]?).map parse) ∧
    (∃ rows, viewLoop (get_webapps parse store) =
        some (rows, errsOf (get_webapps parse store)) ∧
      rows.length = (oks (get_webapps parse store)).length) := by
  refine ⟨by simp [get_webapps], fun i => by simp [get_webapps], ?_⟩
  exact viewLoop_spec (get_webapps parse store) h

/-- Witness for C8: a store holding one well-formed and one malformed entry
lists as two results, and the view renders the one readable launcher while
logging the one error. -/
theorem listing_partial_failure_witness :
    (get_webapps sampleParse ["good", "bad"]).length = 2 ∧
    (∃ rows, viewLoop (get_webapps sampleParse ["good", "bad"]) =
        some (rows, errsOf (get_webapps sampleParse ["good", "bad"])) ∧
      rows.length = (oks (get_webapps sampleParse ["good", "bad"])).length) ∧
    (oks (get_webapps sampleParse ["good", "bad"])).length = 1 ∧
    errsOf (get_webapps sampleParse ["good", "bad"]) = ["bad"] := by
  have h := listing_partial_failure sampleParse ["good", "bad"] (by decide)
  exact ⟨h.1, h.2.2, by decide, by decide⟩

/-- C9: opening a persisted launcher for editing restores every form field
from the stored launcher except the isolated-profile flag: the handler
overwrites title, url, icon, parameters, category, browser, navbar and
incognito, while `app_isolated` keeps the value the form previously
held. -/
theorem edit_restores_all_but_isolated (resolve : String → Option Browser)
    (st : Wam) (launcher : WebAppLauncher) (b : Browser)
    (h : resolve launcher.web_browser.name = some b) :
    editStep resolve st launcher = some
      { st with
        edit_mode := true
        launcher := some launcher
        app_title := launcher.name
        app_url := launcher.url
        app_icon := launcher.icon
        app_parameters := launcher.custom_parameters
        app_category := launcher.category
        app_browser := b
        app_navbar := launcher.navbar
        app_incognito := launcher.is_incognito } ∧
    (∀ st2, editStep resolve st launcher = some st2 →
      st2.app_isolated = st.app_isolated) := by
  refine ⟨by simp [editStep, h], ?_⟩
  intro st2 h2
  simp only [editStep, h, Option.map_some] at h2
  cases h2
  rfl

/-- Witness for C9 at the concrete edit target: the sample state has the
isolated flag at `true` while the stored launcher was saved with
`is_isolated = false`, and the flag stays `true` after the edit. -/
theorem edit_restores_all_but_isolated_witness :
    (∃ st2, editStep resolveSample (Wam.init firefox [firefox]) sampleLauncher
        = some st2 ∧
      st2.app_isolated = true ∧ st2.app_title = "Example" ∧
      st2.app_incognito = true) ∧
    sampleLauncher.is_isolated = false := by
  have h := edit_restores_all_but_isolated resolveSample
    (Wam.init firefox [firefox]) sampleLauncher firefox (by rfl)
  refine ⟨⟨_, h.1, ?_, rfl, rfl⟩, rfl⟩
  exact h.2 _ h.1

/-- C10: two icon-handling paths panic rather than produce an error event:
auto-selecting the first found remote icon panics when `move_icon` fails
(the `expect` at gui.rs line 205), and the continuation after `SetIcon`
panics when decoding the just-saved icon fails (the `unwrap` at gui.rs
lines 411 and 415). -/
theorem icon_paths_can_panic (moveIcon : String → String → Except String String)
    (st : Wam) (icon : Icon) (err : String)
    (h1 : st.icons = some [])
    (h2 : strStartsWith icon.path ("http") = true)
    (h3 : moveIcon icon.path (pushIconOwner st) = Except.error err) :
    pushIconStep moveIcon st icon = none ∧
    (∀ e, setIconContinuation (Except.error e) = none) := by
  refine ⟨?_, fun e => rfl⟩
  unfold pushIconStep
  rw [h1]
  simp only [List.isEmpty_nil, if_true, h2, Bool.not_true, Bool.false_eq_true,
    if_false]
  rw [h3]

/-- Witness for C10: a failing `move_icon` oracle on a fresh state with a
remote icon path makes the `PushIcon` handler panic, and a failing decode
makes the `SetIcon` continuation panic. -/
theorem icon_paths_can_panic_witness :
    pushIconStep (fun _ _ => Except.error ("io"))
      (Wam.init firefox [firefox])
      { icon := IconType.Raster, path := "http://e.com/i.png" } = none ∧
    setIconContinuation (Except.error ("decode")) = none := by
  have h := icon_paths_can_panic (fun _ _ => Except.error ("io"))
    (Wam.init firefox [firefox])
    { icon := IconType.Raster, path := "http://e.com/i.png" }
    ("io") (by rfl) (by decide) (by rfl)
  exact ⟨h.1, h.2 ("decode")⟩

end WamRust
